import Mathlib

/-!
# Verification of the validator-approval core (`src/validators/utils.py`)

A shallow embedding of the oracle consensus client, the keystore loader and
the deterministic Merkle-tree builder of the v3-operator validator module,
together with proofs of the specified properties.

Conventions of the embedding:
* Python byte strings are `List Nat` (one entry per byte), hex strings are
  `String`.
* Network and file-system effects are passed in explicitly as environment
  records of pure functions (`Env`, `FsEnv`, `KeystoreEnv`): a field of the
  record gives the outcome the corresponding external call would produce.
* Python exceptions become `Except` values.  An exception class that a
  `try`/`except` clause would not catch is simply a constructor the embedded
  handler does not match on.
-/

namespace V3Operator

/-- A byte string (each entry one byte). -/
abbrev Bytes := List Nat

/-- A hex string such as `"0xab01"`. -/
abbrev HexStr := String

/-- Decidable equality of `Except` values (componentwise). -/
instance {ε α : Type} [DecidableEq ε] [DecidableEq α] : DecidableEq (Except ε α) := fun x y =>
  match x, y with
  | .error a, .error b =>
      if h : a = b then .isTrue (by rw [h]) else .isFalse (by intro hc; cases hc; exact h rfl)
  | .error _, .ok _ => .isFalse (by intro hc; cases hc)
  | .ok _, .error _ => .isFalse (by intro hc; cases hc)
  | .ok a, .ok b =>
      if h : a = b then .isTrue (by rw [h]) else .isFalse (by intro hc; cases hc; exact h rfl)

/-- Model of Python `str.strip` helpers: test that `p` is an initial segment
of `l` (character-wise). -/
def matchesAt : List Char → List Char → Bool
  | [], _ => true
  | _ :: _, [] => false
  | p :: ps, c :: cs => p = c && matchesAt ps cs

/-- Model of Python `str.startswith` (external to the repo, used via
`str` methods and `eth_utils`). -/
def strStartsWith (s p : String) : Bool :=
  matchesAt p.toList s.toList

/-- Model of Python `str.endswith`. -/
def strEndsWith (s p : String) : Bool :=
  matchesAt p.toList.reverse s.toList.reverse

/-- Fuel-indexed worker for `pyReplace`; the fuel is an upper bound on the
number of characters still to be scanned, so `fuel = length` never runs out. -/
def replaceCharsAux (pat rep : List Char) : Nat → List Char → List Char
  | _, [] => []
  | 0, l => l
  | fuel + 1, c :: cs =>
      if pat ≠ [] ∧ matchesAt pat (c :: cs) then
        rep ++ replaceCharsAux pat rep fuel (List.drop (pat.length - 1) cs)
      else
        c :: replaceCharsAux pat rep fuel cs

/-- Model of Python `str.replace` (replaces every occurrence of `pat`). -/
def pyReplace (s pat rep : String) : String :=
  ⟨replaceCharsAux pat.toList rep.toList s.toList.length s.toList⟩

/-- Model of Python `str.strip`: drop whitespace from both ends. -/
def pyStrip (s : String) : String :=
  ⟨(((s.toList.dropWhile Char.isWhitespace).reverse.dropWhile
      Char.isWhitespace)).reverse⟩

/-- Value of a hex digit character (`0` for non-digits, as a total model). -/
def hexDigitVal (c : Char) : Nat :=
  if '0' ≤ c ∧ c ≤ '9' then c.toNat - '0'.toNat
  else if 'a' ≤ c ∧ c ≤ 'f' then c.toNat - 'a'.toNat + 10
  else if 'A' ≤ c ∧ c ≤ 'F' then c.toNat - 'A'.toNat + 10
  else 0

/-- Pair up hex digits into bytes. -/
def hexPairs : List Char → Bytes
  | a :: b :: rest => (hexDigitVal a * 16 + hexDigitVal b) :: hexPairs rest
  | [a] => [hexDigitVal a]
  | [] => []

/-- Model of `Web3.to_bytes(hexstr=...)` (external `web3` helper): decode a
hex string, with or without a `0x` prefix, into bytes. -/
def hexToBytes (s : HexStr) : Bytes :=
  hexPairs (if strStartsWith s "0x" then (s.drop 2).toList else s.toList)

/-- Hex character of a nibble. -/
def nibbleChar (n : Nat) : Char :=
  if n < 10 then Char.ofNat ('0'.toNat + n) else Char.ofNat ('a'.toNat + n - 10)

/-- Model of `Web3.to_hex` (external `web3` helper): encode bytes as a
`0x`-prefixed hex string. -/
def bytesToHex (bs : Bytes) : HexStr :=
  "0x" ++ ⟨bs.foldr (fun b acc => nibbleChar (b / 16 % 16) :: nibbleChar (b % 16) :: acc) []⟩

/-! ## Data model of the oracle consensus client -/

/-- A transient network error: `aiohttp.ClientError` (carrying a message so
distinct errors are distinguishable) or `asyncio.TimeoutError`. -/
inductive NetError where
  | clientError (msg : String)
  | timeoutError
deriving DecidableEq, Repr

/-- The parsed JSON body of a successful (2xx) oracle response. -/
structure ResponseData where
  ipfs_hash : String
  signature : HexStr
  deadline : Nat
deriving DecidableEq, Repr

/-- Outcome of `session.post` + `raise_for_status` + `response.json()` for one
endpoint: either parsed response data, or a transient error (`ClientError`,
which includes every non-2xx status, or `asyncio.TimeoutError`). -/
inductive HttpOutcome where
  | ok (data : ResponseData)
  | netError (e : NetError)
deriving DecidableEq, Repr

/-- One oracle's signed attestation (`OracleApproval` in
`src/common/typings.py`). -/
structure OracleApproval where
  ipfs_hash : String
  signature : Bytes
  deadline : Nat
deriving DecidableEq, Repr

/-- The errors an embedded approval operation can raise.  `transient` is a
re-raised `ClientError`/`TimeoutError`; `registryRootChanged` and
`validatorIndexChanged` are the stale-round errors of
`src/validators/exceptions.py`; `runtimeError` is the
`RuntimeError('Failed to get response from replicas')` of the replica loop;
`notEnoughApprovals` is the failure of the external threshold combination. -/
inductive ApprovalError where
  | transient (e : NetError)
  | registryRootChanged
  | validatorIndexChanged
  | runtimeError
  | notEnoughApprovals
deriving DecidableEq, Repr

/-- The fields of the serialized `ApprovalRequest` payload
(`dataclasses.asdict(request)`) that the code under verification reads. -/
structure Payload where
  validators_root : HexStr
  validator_index : Nat
  deadline : Nat
deriving DecidableEq, Repr

/-- The environment of one approval round: the outcome each endpoint's HTTP
call would produce, the live registry root
(`Web3.to_hex(validators_registry_contract.get_registry_root())`) and the
re-derived next validator index
(`NetworkValidatorCrud().get_next_validator_index(...)`), as snapshots of the
external world during the round. -/
structure Env where
  postResult : String → HttpOutcome
  registryRoot : HexStr
  nextValidatorIndex : Nat

/-- Embedding of `send_approval_request` (src/validators/utils.py:117-144):
post the payload to the endpoint; on success parse an `OracleApproval`; on a
transient error classify it: a changed registry root raises
`RegistryRootChangedError`, an unchanged root with a changed next validator
index raises `ValidatorIndexChangedError`, and otherwise the transient error
is re-raised. -/
def send_approval_request (env : Env) (endpoint : String) (payload : Payload) :
    Except ApprovalError OracleApproval :=
  match env.postResult endpoint with
  | .ok data =>
      .ok { ipfs_hash := data.ipfs_hash
            signature := hexToBytes data.signature
            deadline := data.deadline }
  | .netError e =>
      if env.registryRoot ≠ payload.validators_root then
        .error .registryRootChanged
      else if env.nextValidatorIndex ≠ payload.validator_index then
        .error .validatorIndexChanged
      else
        .error (.transient e)

/-- Fuel-indexed model of `random.sample(l, len(l))` (Python stdlib,
external): repeatedly draw an index from the injected random stream `rand`
and remove the chosen element.  With `fuel = l.length` the fallback branch is
never reached, so the result is a permutation of `l`. -/
def sampleFuel {α : Type} (rand : Nat → Nat) : Nat → Nat → List α → List α
  | 0, _, l => l
  | _ + 1, _, [] => []
  | fuel + 1, k, a :: rest =>
      let l := a :: rest
      let i := rand k % l.length
      l.get ⟨i, Nat.mod_lt _ (Nat.succ_pos rest.length)⟩ ::
        sampleFuel rand fuel (k + 1) (l.eraseIdx i)

/-- Model of `random.sample(replicas, len(replicas))`
(src/validators/utils.py:102): a shuffle driven by the injected random
stream. -/
def randomSample {α : Type} (rand : Nat → Nat) (l : List α) : List α :=
  sampleFuel rand l.length 0 l

/-- The replica loop of `send_approval_request_to_replicas`
(src/validators/utils.py:104-114), instrumented: the first component is the
function's result, the second records the endpoints actually attempted, in
order.  A `ClientError`/`TimeoutError` (`ApprovalError.transient`) is caught,
stored in `last_error` and the loop moves on; any other error (the
stale-round errors) is not caught by the `except` clause and propagates,
ending the loop.  An exhausted loop re-raises `last_error` when set and
otherwise raises `RuntimeError`. -/
def replicasRun (env : Env) (payload : Payload) :
    List String → Option NetError → Except ApprovalError OracleApproval × List String
  | [], none => (.error .runtimeError, [])
  | [], some e => (.error (.transient e), [])
  | endpoint :: rest, lastError =>
      match send_approval_request env endpoint payload with
      | .ok approval => (.ok approval, [endpoint])
      | .error (.transient e) =>
          let r := replicasRun env payload rest (some e)
          (r.1, endpoint :: r.2)
      | .error err =>
          let _ := lastError
          (.error err, [endpoint])

/-- Embedding of `send_approval_request_to_replicas`
(src/validators/utils.py:96-114) together with its attempt trace: shuffle the
replica list, then run the replica loop with `last_error = None`.  (The
`retry_aiohttp_errors` decorator — the external bounded retry policy — is not
modelled; this is a single invocation of the function body.) -/
def send_approval_request_to_replicas_run (env : Env) (rand : Nat → Nat)
    (replicas : List String) (payload : Payload) :
    Except ApprovalError OracleApproval × List String :=
  replicasRun env payload (randomSample rand replicas) none

/-- Embedding of `send_approval_request_to_replicas`: the returned (or
raised) value alone. -/
def send_approval_request_to_replicas (env : Env) (rand : Nat → Nat)
    (replicas : List String) (payload : Payload) :
    Except ApprovalError OracleApproval :=
  (send_approval_request_to_replicas_run env rand replicas payload).1

/-! ## Batch fan-out: `send_approval_requests` -/

/-- The oracle set (`Oracles` in `src/common/typings.py`): identities,
index-aligned replica-URL lists, and the approval threshold. -/
structure Oracles where
  addresses : List String
  endpoints : List (List String)
  validators_threshold : Nat
deriving DecidableEq, Repr

/-- Python `dict` assignment `d[k] = v`: replace the value in place when the
key is present, otherwise append the new pair at the end. -/
def dictInsert {α β : Type} [DecidableEq α] (d : List (α × β)) (k : α) (v : β) :
    List (α × β) :=
  if d.any fun p => p.1 = k then
    d.map fun p => if p.1 = k then (k, v) else p
  else
    d ++ [(k, v)]

/-- Modelled from the spec: the aggregated, threshold-satisfying artifact
(`OraclesApproval` of `src/common/typings.py`, not under `src/`): the
approvals handed to transaction submission. -/
structure OraclesApproval where
  approvals : List (String × OracleApproval)
deriving DecidableEq, Repr

/-- Modelled from the spec: `process_oracles_approvals`
(`src/common/utils.py`, not under `src/`) — "Threshold satisfied ⇒
`OraclesApproval`; otherwise the whole operation fails" (§4.3 step 4). -/
def process_oracles_approvals (approvals : List (String × OracleApproval))
    (threshold : Nat) : Except ApprovalError OraclesApproval :=
  if threshold ≤ approvals.length then .ok ⟨approvals⟩ else .error .notEnoughApprovals

/-- The `asyncio.gather(..., return_exceptions=True)` of
`send_approval_requests` (src/validators/utils.py:51-59): one task per
`(address, replicas)` pair of `zip(oracles.addresses, oracles.endpoints)`,
every outcome — value or exception — collected as a list entry.  `rands i`
is the random stream the `i`-th task's shuffle draws from. -/
def gatherResults (env : Env) (rands : Nat → Nat → Nat) (oracles : Oracles)
    (payload : Payload) : List (Except ApprovalError OracleApproval) :=
  (oracles.addresses.zip oracles.endpoints).enum.map fun p =>
    send_approval_request_to_replicas env (rands p.1) p.2.2 payload

/-- The collection loop of `send_approval_requests`
(src/validators/utils.py:61-75): walk
`zip(addresses, endpoints, results)`; an exception outcome extends
`failed_endpoints` with that oracle's replicas, a value outcome is stored in
the `approvals` dict. -/
def collectApprovals :
    List ((String × List String) × Except ApprovalError OracleApproval) →
    List (String × OracleApproval) → List String →
    List (String × OracleApproval) × List String
  | [], approvals, failed => (approvals, failed)
  | ((address, replicas), result) :: rest, approvals, failed =>
      match result with
      | .error _ => collectApprovals rest approvals (failed ++ replicas)
      | .ok a => collectApprovals rest (dictInsert approvals address a) failed

/-- The per-oracle triples `zip(oracles.addresses, oracles.endpoints,
results)` that the collection loop of `send_approval_requests` walks. -/
def batchPairs (env : Env) (rands : Nat → Nat → Nat) (oracles : Oracles)
    (payload : Payload) :
    List ((String × List String) × Except ApprovalError OracleApproval) :=
  (oracles.addresses.zip oracles.endpoints).zip (gatherResults env rands oracles payload)

/-- The `(approvals, failed_endpoints)` state after the collection loop of
`send_approval_requests` has run. -/
def batchCollect (env : Env) (rands : Nat → Nat → Nat) (oracles : Oracles)
    (payload : Payload) : List (String × OracleApproval) × List String :=
  collectApprovals (batchPairs env rands oracles payload) [] []

/-- Embedding of `send_approval_requests` (src/validators/utils.py:45-91):
gather every oracle task's outcome, collect approvals and failed endpoints,
and hand the approvals with the threshold to `process_oracles_approvals`. -/
def send_approval_requests (env : Env) (rands : Nat → Nat → Nat)
    (oracles : Oracles) (request : Payload) : Except ApprovalError OraclesApproval :=
  process_oracles_approvals (batchCollect env rands oracles request).1
    oracles.validators_threshold

/-! ## Keystore discovery and loading -/

/-- A discovered keystore file with its resolved password (`KeystoreFile` of
`src/validators/typings.py`). -/
structure KeystoreFile where
  name : String
  password : String
deriving DecidableEq, Repr

/-- The file-system view the keystore code reads: the `settings` values, the
directory listing of the keystores directory, an `isfile` test on paths, and
the text content of files.  Paths are joined with `/`. -/
structure FsEnv where
  keystores_dir : String
  keystores_password_dir : String
  keystores_password_file : String
  listing : List String
  isFile : String → Bool
  readFile : String → String

/-- `pathlib`-style path join. -/
def pathJoin (d f : String) : String := d ++ "/" ++ f

/-- Embedding of `_load_keystores_password`
(src/validators/utils.py:247-249): read the password file and strip
whitespace. -/
def load_keystores_password (fs : FsEnv) (password_path : String) : String :=
  pyStrip (fs.readFile password_path)

/-- Embedding of `list_keystore_files` (src/validators/utils.py:147-164):
keep listing entries that are files named `keystore*.json`; resolve each
file's password from its sidecar `<name with .json → .txt>` in the password
directory when that sidecar is a file, and otherwise from the directory-wide
default password file. -/
def list_keystore_files (fs : FsEnv) : List KeystoreFile :=
  fs.listing.filterMap fun f =>
    if fs.isFile (pathJoin fs.keystores_dir f) ∧ strStartsWith f "keystore"
        ∧ strEndsWith f ".json" then
      let sidecar := pathJoin fs.keystores_password_dir (pyReplace f ".json" ".txt")
      let password_file := if fs.isFile sidecar then sidecar else fs.keystores_password_file
      some ⟨f, load_keystores_password fs password_file⟩
    else
      none

/-- The typed per-file error of `_process_keystore_file`
(`KeystoreException` of `src/validators/exceptions.py`), distinguishing a
malformed container from a wrong password, carrying the file name. -/
inductive KeystoreErr where
  | invalidFormat (name : String)
  | invalidPassword (name : String)
deriving DecidableEq, Repr

/-- The outcomes of the external scrypt keystore library and BLS binding:
`ScryptKeystore.from_file` (parse outcome per path, with an opaque parsed
container modelled as `Nat`), `keystore.decrypt(password)` (per container and
password), and the deterministic `bls.SkToPk`. -/
structure KeystoreEnv where
  fromFile : String → Except String Nat
  decryptOutcome : Nat → String → Except String Bytes
  skToPk : Bytes → Bytes

/-- Embedding of `_process_keystore_file` (src/validators/utils.py:227-244):
parse the container (failure ⇒ `invalidFormat`), decrypt with the resolved
password (failure ⇒ `invalidPassword`), derive the public key. -/
def process_keystore_file (kenv : KeystoreEnv) (keystore_file : KeystoreFile)
    (keystore_path : String) : Except KeystoreErr (HexStr × Bytes) :=
  match kenv.fromFile (pathJoin keystore_path keystore_file.name) with
  | .error _ => .error (.invalidFormat keystore_file.name)
  | .ok keystore =>
      match kenv.decryptOutcome keystore keystore_file.password with
      | .error _ => .error (.invalidPassword keystore_file.name)
      | .ok private_key => .ok (bytesToHex (kenv.skToPk private_key), private_key)

/-- The public-key → private-key mapping (`Keystores` of
`src/validators/typings.py`), as the underlying insertion-ordered dict. -/
structure Keystores where
  pairs : List (HexStr × Bytes)
deriving DecidableEq, Repr

/-- The result-collection loop of `load_keystores`
(src/validators/utils.py:185-192): walk the per-file outcomes in dispatch
order; a success is stored in the dict, the first `KeystoreException` aborts
the whole load with `RuntimeError('Failed to load keystores')` (modelled as
the `Except.error` carrying the offending file's error). -/
def loadLoop : List (Except KeystoreErr (HexStr × Bytes)) →
    List (HexStr × Bytes) → Except KeystoreErr Keystores
  | [], keystores => .ok ⟨keystores⟩
  | .ok (pub_key, priv_key) :: rest, keystores =>
      loadLoop rest (dictInsert keystores pub_key priv_key)
  | .error e :: _, _ => .error e

/-- Embedding of `load_keystores` (src/validators/utils.py:167-195):
discover the keystore files, process each one (the worker pool preserves
submission order in `results`, so outcomes are collected in file order), and
fail the whole load on the first failed outcome. -/
def load_keystores (fs : FsEnv) (kenv : KeystoreEnv) : Except KeystoreErr Keystores :=
  let keystore_files := list_keystore_files fs
  loadLoop (keystore_files.map fun kf => process_keystore_file kenv kf fs.keystores_dir) []

/-! ## Deterministic Merkle-tree builder -/

/-- Model of `eth_utils.add_0x_prefix` (external library): return the string
unchanged when it already carries a `0x`/`0X` prefix, otherwise prepend
`0x`. -/
def add_0x_prefix (s : HexStr) : HexStr :=
  if strStartsWith s "0x" ∨ strStartsWith s "0X" then s else "0x" ++ s

/-- A validator record (`Validator` of `src/validators/typings.py`). -/
structure Validator where
  deposit_data_index : Nat
  public_key : HexStr
  signature : HexStr
deriving DecidableEq, Repr

/-- One entry of the deposit-data JSON array: the fields the tree builder
reads. -/
structure DepositEntry where
  pubkey : HexStr
  signature : HexStr
deriving DecidableEq, Repr

/-- Modelled stand-in for `keccak256` (external): a fixed deterministic
byte-string digest.  None of the properties proved below depend on its
definition, only on it being a function. -/
def keccakModel (bs : Bytes) : Bytes :=
  [bs.foldl (fun a b => (a * 131 + b + 1) % (2 ^ 64)) 17]

/-- Lexicographic byte-string order used to sort hashes. -/
def bytesLe : Bytes → Bytes → Bool
  | [], _ => true
  | _ :: _, [] => false
  | a :: as, b :: bs => if a = b then bytesLe as bs else decide (a < b)

/-- Insertion step of the deterministic sort. -/
def insertSorted {α : Type} (le : α → α → Bool) (x : α) : List α → List α
  | [] => [x]
  | y :: ys => if le x y then x :: y :: ys else y :: insertSorted le x ys

/-- Deterministic insertion sort. -/
def sortByLe {α : Type} (le : α → α → Bool) (l : List α) : List α :=
  l.foldr (insertSorted le) []

/-- Model of the ABI leaf encoding for the `['bytes', 'uint256']` leaf
schema of the external `multiproof` library. -/
def encodeLeaf (b : Bytes) (i : Nat) : Bytes := b ++ [i]

/-- Sorted-pair hash of two nodes (the OpenZeppelin standard-tree rule). -/
def hashPair (a b : Bytes) : Bytes :=
  keccakModel (if bytesLe a b then a ++ b else b ++ a)

/-- Combine one tree level into the next: hash adjacent pairs, carry an odd
last node up unchanged. -/
def buildLevel : List Bytes → List Bytes
  | [] => []
  | [a] => [a]
  | a :: b :: rest => hashPair a b :: buildLevel rest

/-- Fold levels up to the root; the fuel (≥ number of leaves) makes the
recursion structural and is never exhausted in use. -/
def rootAux : Nat → List Bytes → Bytes
  | _, [] => keccakModel []
  | _, [h] => h
  | 0, l => keccakModel l.flatten
  | fuel + 1, l => rootAux fuel (buildLevel l)

/-- Root of the pair-hash tree over a level of node hashes. -/
def merkleRoot (leaves : List Bytes) : Bytes := rootAux leaves.length leaves

/-- Collect the Merkle proof (sibling path) of the node at index `i`. -/
def proofAux : Nat → Nat → List Bytes → List Bytes
  | _, _, [] => []
  | _, _, [_] => []
  | 0, _, _ => []
  | fuel + 1, i, l =>
      let sib := if i % 2 = 0 then i + 1 else i - 1
      (match l[sib]? with
       | some s => [s]
       | none => []) ++ proofAux fuel (i / 2) (buildLevel l)

/-- Model of the external `multiproof.StandardMerkleTree`: the input values,
the leaf hashes sorted by the standard double-hash rule, and the root. -/
structure StandardMerkleTree where
  values : List (Bytes × Nat)
  sortedHashes : List Bytes
  root : Bytes
deriving DecidableEq, Repr

/-- Model of `StandardMerkleTree.of(leaves, ['bytes', 'uint256'])` (external
`multiproof` library): double-hash each encoded leaf, sort the hashes, build
the sorted-pair hash tree. -/
def StandardMerkleTree.of (leaves : List (Bytes × Nat)) : StandardMerkleTree :=
  let hashes := leaves.map fun v => keccakModel (keccakModel (encodeLeaf v.1 v.2))
  let sorted := sortByLe bytesLe hashes
  { values := leaves, sortedHashes := sorted, root := merkleRoot sorted }

/-- Model of the external library's per-leaf proof: locate the `i`-th input
value's hash in the sorted level and return its sibling path. -/
def StandardMerkleTree.proofOf (t : StandardMerkleTree) (i : Nat) : List Bytes :=
  match t.values[i]? with
  | none => []
  | some v =>
      let h := keccakModel (keccakModel (encodeLeaf v.1 v.2))
      proofAux t.sortedHashes.length (t.sortedHashes.findIdx fun x => x = h)
        t.sortedHashes

/-- Model of `sw_utils.get_eth1_withdrawal_credentials` (external): the
`0x01` prefix, eleven zero bytes, and the vault address bytes. -/
def get_eth1_withdrawal_credentials (vault : HexStr) : Bytes :=
  1 :: List.replicate 11 0 ++ hexToBytes vault

/-- Modelled from the spec: `encode_tx_validator`
(`src/validators/signing/common.py`, not under `src/`) — "Leaf value =
deterministic encoding of (withdrawal_credentials, index) bound to the
validator's public key/signature through a fixed two-field leaf schema"
(§4.2): a deterministic byte encoding of the credentials and the validator's
public key and signature. -/
def encode_tx_validator (credentials : Bytes) (validator : Validator) : Bytes :=
  credentials ++ hexToBytes validator.public_key ++ hexToBytes validator.signature

/-- Embedding of `generate_validators_tree` (src/validators/utils.py:207-224):
compute the withdrawal credentials once; for entry `i` build
`Validator(deposit_data_index := i, public_key/signature := 0x-normalized
hex)`, collect the `(encode_tx_validator credentials validator, i)` leaves in
order, and build the standard tree over them. -/
def generate_validators_tree (vault : HexStr) (deposit_data : List DepositEntry) :
    StandardMerkleTree × List Validator :=
  let credentials := get_eth1_withdrawal_credentials vault
  let validators : List Validator := deposit_data.enum.map fun p =>
    { deposit_data_index := p.1
      public_key := add_0x_prefix p.2.pubkey
      signature := add_0x_prefix p.2.signature }
  let leaves : List (Bytes × Nat) := validators.map fun v =>
    (encode_tx_validator credentials v, v.deposit_data_index)
  (StandardMerkleTree.of leaves, validators)

/-! ## Concrete fixtures used by witnesses and counterexamples -/

/-- First-match association lookup (the view of a Python `dict` read). -/
def lookupKey {α β : Type} [DecidableEq α] (k : α) : List (α × β) → Option β
  | [] => none
  | (k', v) :: rest => if k' = k then some v else lookupKey k rest

/-- A random stream that always draws index 0, making the shuffle the
identity. -/
def rand0 : Nat → Nat := fun _ => 0

/-- Identity-shuffle streams for every oracle task. -/
def rands0 : Nat → Nat → Nat := fun _ _ => 0

/-- A payload whose root and next index match the live chain in the healthy
fixtures. -/
def payloadW : Payload := { validators_root := "0xroot", validator_index := 7, deadline := 100 }

/-- Fixture for C1: every endpoint times out and the live registry root
differs from the payload's. -/
def envC1 : Env :=
  { postResult := fun _ => .netError .timeoutError
    registryRoot := "0xother"
    nextValidatorIndex := 7 }

/-- Fixture for C2: every endpoint fails, the root matches but the next
validator index moved on. -/
def envC2 : Env :=
  { postResult := fun _ => .netError (.clientError "boom")
    registryRoot := "0xroot"
    nextValidatorIndex := 9 }

/-- Fixture for C5: both replicas fail transiently with distinct errors and
nothing is stale. -/
def envC5 : Env :=
  { postResult := fun ep =>
      if ep = "r1" then .netError (.clientError "e1") else .netError (.clientError "e2")
    registryRoot := "0xroot"
    nextValidatorIndex := 7 }

/-- Response body returned by the healthy endpoints of the fixtures. -/
def dataB : ResponseData := { ipfs_hash := "ipfsB", signature := "0x01", deadline := 5 }

/-- The `OracleApproval` parsed from `dataB`. -/
def approvalB : OracleApproval := { ipfs_hash := "ipfsB", signature := [1], deadline := 5 }

/-- Fixture for C6: replica `a` fails transiently, `b` and `c` would
succeed. -/
def envC6 : Env :=
  { postResult := fun ep => if ep = "a" then .netError (.clientError "ea") else .ok dataB
    registryRoot := "0xroot"
    nextValidatorIndex := 7 }

/-- Fixture for C3/C4: oracle `oa`'s only replica `a1` times out while the
registry root has moved on from the payload's, oracle `ob`'s replica `b1`
answers. -/
def envC3 : Env :=
  { postResult := fun ep => if ep = "b1" then .ok dataB else .netError .timeoutError
    registryRoot := "0xlive"
    nextValidatorIndex := 7 }

/-- The stale payload of the C3/C4 scenario. -/
def payloadC3 : Payload := { validators_root := "0xstale", validator_index := 7, deadline := 100 }

/-- The two-oracle set of the C3/C4 scenario, threshold 1. -/
def oraclesC3 : Oracles :=
  { addresses := ["oa", "ob"], endpoints := [["a1"], ["b1"]], validators_threshold := 1 }

/-- Deposit-data fixture for C7/C9. -/
def ddW : List DepositEntry := [⟨"aa", "bb"⟩, ⟨"0xcc", "dd"⟩]

/-- File-system fixture for C8: two keystore files, no sidecars, one default
password file. -/
def fsC8 : FsEnv :=
  { keystores_dir := "ks"
    keystores_password_dir := "pw"
    keystores_password_file := "defpw.txt"
    listing := ["keystore1.json", "keystore2.json"]
    isFile := fun p => p = "ks/keystore1.json" ∨ p = "ks/keystore2.json"
    readFile := fun p => if p = "defpw.txt" then "pass" else "" }

/-- Keystore-library fixture for C8: the first container parses and
decrypts, the second is corrupted. -/
def kenvC8 : KeystoreEnv :=
  { fromFile := fun p => if p = "ks/keystore1.json" then .ok 1 else .error "corrupted"
    decryptOutcome := fun _ pw => if pw = "pass" then .ok [1, 2] else .error "bad password"
    skToPk := fun sk => 3 :: sk }

/-- File-system fixture for C10: `keystore1.json` has the sidecar
`pw/keystore1.txt` (content `" abc\n"`), `keystore2.json` has none and falls
back to the default password file (content `"xyz"`). -/
def envC10 : FsEnv :=
  { keystores_dir := "ks"
    keystores_password_dir := "pw"
    keystores_password_file := "defpw.txt"
    listing := ["keystore1.json", "keystore2.json"]
    isFile := fun p =>
      p = "ks/keystore1.json" ∨ p = "ks/keystore2.json" ∨ p = "pw/keystore1.txt"
    readFile := fun p =>
      if p = "pw/keystore1.txt" then " abc\n" else if p = "defpw.txt" then "xyz" else "" }

/-! ## Helper lemmas -/

theorem send_approval_request_ok (env : Env) (payload : Payload) (endpoint : String)
    (d : ResponseData) (h : env.postResult endpoint = .ok d) :
    send_approval_request env endpoint payload =
      .ok { ipfs_hash := d.ipfs_hash, signature := hexToBytes d.signature,
            deadline := d.deadline } := by
  simp [send_approval_request, h]

theorem send_approval_request_stale_root (env : Env) (payload : Payload)
    (endpoint : String) (e : NetError)
    (hfail : env.postResult endpoint = .netError e)
    (hroot : env.registryRoot ≠ payload.validators_root) :
    send_approval_request env endpoint payload = .error .registryRootChanged := by
  simp [send_approval_request, hfail, hroot]

theorem send_approval_request_stale_index (env : Env) (payload : Payload)
    (endpoint : String) (e : NetError)
    (hfail : env.postResult endpoint = .netError e)
    (hroot : env.registryRoot = payload.validators_root)
    (hidx : env.nextValidatorIndex ≠ payload.validator_index) :
    send_approval_request env endpoint payload = .error .validatorIndexChanged := by
  simp [send_approval_request, hfail, hroot, hidx]

theorem replicasRun_stale_root (env : Env) (payload : Payload)
    (hroot : env.registryRoot ≠ payload.validators_root)
    (l : List String) (le : Option NetError) (ep : String) (e : NetError)
    (hmem : ep ∈ (replicasRun env payload l le).2)
    (hfail : env.postResult ep = .netError e) :
    (replicasRun env payload l le).1 = .error .registryRootChanged ∧
    (replicasRun env payload l le).2.getLast? = some ep := by
  cases l with
  | nil => cases le <;> simp [replicasRun] at hmem
  | cons h t =>
      rcases hh : env.postResult h with d | e'
      · have hrun : replicasRun env payload (h :: t) le =
            (.ok { ipfs_hash := d.ipfs_hash, signature := hexToBytes d.signature,
                   deadline := d.deadline }, [h]) := by
          simp [replicasRun, send_approval_request_ok env payload h d hh]
        rw [hrun] at hmem
        simp at hmem
        rw [hmem] at hfail
        rw [hh] at hfail
        exact absurd hfail (by simp)
      · have hrun : replicasRun env payload (h :: t) le =
            (.error .registryRootChanged, [h]) := by
          simp [replicasRun, send_approval_request_stale_root env payload h e' hh hroot]
        rw [hrun] at hmem ⊢
        simp at hmem
        subst hmem
        exact ⟨rfl, rfl⟩

theorem replicasRun_stale_index (env : Env) (payload : Payload)
    (hroot : env.registryRoot = payload.validators_root)
    (hidx : env.nextValidatorIndex ≠ payload.validator_index)
    (l : List String) (le : Option NetError) (ep : String) (e : NetError)
    (hmem : ep ∈ (replicasRun env payload l le).2)
    (hfail : env.postResult ep = .netError e) :
    (replicasRun env payload l le).1 = .error .validatorIndexChanged ∧
    (replicasRun env payload l le).2.getLast? = some ep := by
  cases l with
  | nil => cases le <;> simp [replicasRun] at hmem
  | cons h t =>
      rcases hh : env.postResult h with d | e'
      · have hrun : replicasRun env payload (h :: t) le =
            (.ok { ipfs_hash := d.ipfs_hash, signature := hexToBytes d.signature,
                   deadline := d.deadline }, [h]) := by
          simp [replicasRun, send_approval_request_ok env payload h d hh]
        rw [hrun] at hmem
        simp at hmem
        rw [hmem] at hfail
        rw [hh] at hfail
        exact absurd hfail (by simp)
      · have hrun : replicasRun env payload (h :: t) le =
            (.error .validatorIndexChanged, [h]) := by
          simp [replicasRun, send_approval_request_stale_index env payload h e' hh hroot hidx]
        rw [hrun] at hmem ⊢
        simp at hmem
        subst hmem
        exact ⟨rfl, rfl⟩

theorem cons_eraseIdx_perm {α : Type} :
    ∀ (l : List α) (i : Nat) (h : i < l.length),
      (l.get ⟨i, h⟩ :: l.eraseIdx i).Perm l
  | a :: t, 0, _ => by simp [List.eraseIdx]
  | a :: t, i + 1, h => by
      have ht : i < t.length := by simpa using h
      have ih := cons_eraseIdx_perm t i ht
      show (t.get ⟨i, ht⟩ :: a :: t.eraseIdx i).Perm (a :: t)
      exact (List.Perm.swap a (t.get ⟨i, ht⟩) (t.eraseIdx i)).trans (ih.cons a)

theorem sampleFuel_perm {α : Type} (rand : Nat → Nat) :
    ∀ (fuel k : Nat) (l : List α), (sampleFuel rand fuel k l).Perm l
  | 0, _, l => by simp [sampleFuel]
  | fuel + 1, k, [] => by simp [sampleFuel]
  | fuel + 1, k, a :: rest => by
      rw [sampleFuel]
      exact ((sampleFuel_perm rand fuel (k + 1) _).cons _).trans
        (cons_eraseIdx_perm (a :: rest) _ _)

theorem randomSample_perm {α : Type} (rand : Nat → Nat) (l : List α) :
    (randomSample rand l).Perm l :=
  sampleFuel_perm rand l.length 0 l

theorem replicasRun_attempted_sublist (env : Env) (payload : Payload) :
    ∀ (l : List String) (le : Option NetError),
      ((replicasRun env payload l le).2).Sublist l
  | [], le => by cases le <;> simp [replicasRun]
  | h :: t, le => by
      cases hs : send_approval_request env h payload with
      | ok b => simp [replicasRun, hs]
      | error err =>
          cases err with
          | transient e =>
              simpa [replicasRun, hs] using
                (replicasRun_attempted_sublist env payload t (some e)).cons₂ h
          | registryRootChanged => simp [replicasRun, hs]
          | validatorIndexChanged => simp [replicasRun, hs]
          | runtimeError => simp [replicasRun, hs]
          | notEnoughApprovals => simp [replicasRun, hs]

theorem replicasRun_success_stops (env : Env) (payload : Payload) :
    ∀ (l : List String) (le : Option NetError) (ep : String) (a : OracleApproval),
      ep ∈ (replicasRun env payload l le).2 →
      send_approval_request env ep payload = .ok a →
      (replicasRun env payload l le).1 = .ok a ∧
      (replicasRun env payload l le).2.getLast? = some ep
  | [], le, ep, a => by cases le <;> simp [replicasRun]
  | h :: t, le, ep, a => by
      intro hmem hok
      cases hs : send_approval_request env h payload with
      | ok b =>
          have hrun : replicasRun env payload (h :: t) le = (.ok b, [h]) := by
            simp [replicasRun, hs]
          rw [hrun] at hmem ⊢
          simp at hmem
          subst hmem
          rw [hs] at hok
          cases hok
          exact ⟨rfl, rfl⟩
      | error err =>
          cases err with
          | transient e =>
              have hrun : replicasRun env payload (h :: t) le =
                  ((replicasRun env payload t (some e)).1,
                    h :: (replicasRun env payload t (some e)).2) := by
                simp [replicasRun, hs]
              rw [hrun] at hmem ⊢
              rcases List.mem_cons.mp hmem with rfl | hmem'
              · rw [hs] at hok; cases hok
              · have ih := replicasRun_success_stops env payload t (some e) ep a hmem' hok
                have hne : (replicasRun env payload t (some e)).2 ≠ [] := by
                  intro hnil; rw [hnil] at hmem'; cases hmem'
                refine ⟨ih.1, ?_⟩
                cases hcase : (replicasRun env payload t (some e)).2 with
                | nil => exact absurd hcase hne
                | cons x xs =>
                    have := ih.2
                    rw [hcase] at this
                    simpa [List.getLast?_cons] using this
          | registryRootChanged =>
              have hrun : replicasRun env payload (h :: t) le =
                  (.error .registryRootChanged, [h]) := by simp [replicasRun, hs]
              rw [hrun] at hmem ⊢
              simp at hmem
              subst hmem
              rw [hs] at hok
              cases hok
          | validatorIndexChanged =>
              have hrun : replicasRun env payload (h :: t) le =
                  (.error .validatorIndexChanged, [h]) := by simp [replicasRun, hs]
              rw [hrun] at hmem ⊢
              simp at hmem
              subst hmem
              rw [hs] at hok
              cases hok
          | runtimeError =>
              have hrun : replicasRun env payload (h :: t) le =
                  (.error .runtimeError, [h]) := by simp [replicasRun, hs]
              rw [hrun] at hmem ⊢
              simp at hmem
              subst hmem
              rw [hs] at hok
              cases hok
          | notEnoughApprovals =>
              have hrun : replicasRun env payload (h :: t) le =
                  (.error .notEnoughApprovals, [h]) := by simp [replicasRun, hs]
              rw [hrun] at hmem ⊢
              simp at hmem
              subst hmem
              rw [hs] at hok
              cases hok

theorem replicasRun_all_transient (env : Env) (payload : Payload) :
    ∀ (l : List String) (hne : l ≠ [])
      (hall : ∀ ep ∈ l, ∃ e, send_approval_request env ep payload = .error (.transient e))
      (le : Option NetError),
      (replicasRun env payload l le).1 =
        send_approval_request env (l.getLast hne) payload
  | [], hne, _, _ => absurd rfl hne
  | h :: t, _, hall, le => by
      obtain ⟨e, he⟩ := hall h (by simp)
      cases t with
      | nil => simp [replicasRun, he]
      | cons h2 t2 =>
          have hrun : replicasRun env payload (h :: h2 :: t2) le =
              ((replicasRun env payload (h2 :: t2) (some e)).1,
                h :: (replicasRun env payload (h2 :: t2) (some e)).2) := by
            simp [replicasRun, he]
          rw [hrun, List.getLast_cons (by simp)]
          exact replicasRun_all_transient env payload (h2 :: t2) (by simp)
            (fun ep hm => hall ep (List.mem_cons_of_mem h hm)) (some e)

instance : Nonempty (Except ApprovalError OracleApproval) := ⟨.error .runtimeError⟩

theorem lookupKey_map_replace {α β : Type} [DecidableEq α]
    (k : α) (v : β) :
    ∀ (d : List (α × β)), d.any (fun p => p.1 = k) = true →
      lookupKey k (d.map fun p => if p.1 = k then (k, v) else p) = some v
  | [], hany => by simp at hany
  | (pk, pv) :: rest, hany => by
      simp only [List.map_cons]
      by_cases hp : pk = k
      · rw [if_pos hp]
        simp [lookupKey]
      · rw [if_neg hp]
        have hany' : rest.any (fun p => p.1 = k) = true := by
          simp only [List.any_cons, Bool.or_eq_true, decide_eq_true_eq] at hany
          rcases hany with h | h
          · exact absurd h hp
          · exact h
        simp [lookupKey, hp, lookupKey_map_replace k v rest hany']

theorem lookupKey_append_fresh {α β : Type} [DecidableEq α] (k : α) (v : β) :
    ∀ (d : List (α × β)), d.any (fun p => p.1 = k) = false →
      lookupKey k (d ++ [(k, v)]) = some v
  | [], _ => by simp [lookupKey]
  | (pk, pv) :: rest, hnone => by
      simp only [List.any_cons, Bool.or_eq_false_iff, decide_eq_false_iff_not] at hnone
      simp only [List.cons_append, lookupKey]
      rw [if_neg hnone.1]
      exact lookupKey_append_fresh k v rest (by simpa using hnone.2)

theorem lookupKey_dictInsert_self {α β : Type} [DecidableEq α]
    (d : List (α × β)) (k : α) (v : β) :
    lookupKey k (dictInsert d k v) = some v := by
  unfold dictInsert
  rcases hany : d.any (fun p => p.1 = k) with _ | _
  · simp only [Bool.false_eq_true, if_false]
    exact lookupKey_append_fresh k v d hany
  · simp only [if_true]
    exact lookupKey_map_replace k v d hany

theorem lookupKey_dictInsert_ne {α β : Type} [DecidableEq α]
    (k k' : α) (v : β) (hne : k' ≠ k) :
    ∀ (d : List (α × β)), lookupKey k' (dictInsert d k v) = lookupKey k' d := by
  have hk : ¬ k = k' := fun hc => hne hc.symm
  have hmap : ∀ (d : List (α × β)),
      lookupKey k' (d.map fun p => if p.1 = k then (k, v) else p) = lookupKey k' d := by
    intro d
    induction d with
    | nil => rfl
    | cons p rest ih =>
        obtain ⟨pk, pv⟩ := p
        simp only [List.map_cons]
        by_cases hp : pk = k
        · rw [if_pos hp]
          have hp' : ¬ pk = k' := by rw [hp]; exact hk
          simp only [lookupKey]
          rw [if_neg hk, if_neg hp']
          exact ih
        · rw [if_neg hp]
          simp only [lookupKey]
          by_cases hp' : pk = k'
          · rw [if_pos hp', if_pos hp']
          · rw [if_neg hp', if_neg hp']
            exact ih
  have happ : ∀ (d : List (α × β)),
      lookupKey k' (d ++ [(k, v)]) = lookupKey k' d := by
    intro d
    induction d with
    | nil =>
        simp only [List.nil_append, lookupKey]
        rw [if_neg hk]
    | cons p rest ih =>
        obtain ⟨pk, pv⟩ := p
        simp only [List.cons_append, lookupKey]
        by_cases hp' : pk = k'
        · rw [if_pos hp', if_pos hp']
        · rw [if_neg hp', if_neg hp']
          exact ih
  intro d
  unfold dictInsert
  split
  · exact hmap d
  · exact happ d

theorem collectApprovals_untouched (addr : String) :
    ∀ (pairs : List ((String × List String) × Except ApprovalError OracleApproval))
      (acc : List (String × OracleApproval)) (failed : List String),
      addr ∉ pairs.map (fun p => p.1.1) →
      lookupKey addr (collectApprovals pairs acc failed).1 = lookupKey addr acc
  | [], _, _, _ => rfl
  | ((a0, r0), res0) :: rest, acc, failed, h => by
      have h0 : addr ≠ a0 ∧ addr ∉ rest.map (fun p => p.1.1) := by
        simpa using h
      cases res0 with
      | error e =>
          simpa [collectApprovals] using
            collectApprovals_untouched addr rest acc (failed ++ r0) h0.2
      | ok b =>
          have := collectApprovals_untouched addr rest (dictInsert acc a0 b) failed h0.2
          simpa [collectApprovals, this] using
            lookupKey_dictInsert_ne a0 addr b h0.1 acc

theorem collectApprovals_failed_mono :
    ∀ (pairs : List ((String × List String) × Except ApprovalError OracleApproval))
      (acc : List (String × OracleApproval)) (failed : List String) (r : String),
      r ∈ failed → r ∈ (collectApprovals pairs acc failed).2
  | [], _, _, _, hr => hr
  | ((a0, r0), res0) :: rest, acc, failed, r, hr => by
      cases res0 with
      | error e =>
          exact collectApprovals_failed_mono rest acc (failed ++ r0) r
            (List.mem_append_left _ hr)
      | ok b => exact collectApprovals_failed_mono rest (dictInsert acc a0 b) failed r hr

theorem collectApprovals_ok :
    ∀ (pairs : List ((String × List String) × Except ApprovalError OracleApproval))
      (acc : List (String × OracleApproval)) (failed : List String)
      (addr : String) (replicas : List String) (a : OracleApproval),
      ((addr, replicas), Except.ok a) ∈ pairs →
      (pairs.map (fun p => p.1.1)).Nodup →
      lookupKey addr (collectApprovals pairs acc failed).1 = some a
  | [], _, _, _, _, _, hmem, _ => by cases hmem
  | ((a0, r0), res0) :: rest, acc, failed, addr, replicas, a, hmem, hnodup => by
      have hnodup' : (rest.map (fun p => p.1.1)).Nodup := (List.nodup_cons.mp hnodup).2
      rcases List.mem_cons.mp hmem with heq | hmem'
      · have ha : addr = a0 := congrArg (fun x => x.1.1) heq
        have hres : Except.ok (ε := ApprovalError) a = res0 := congrArg (fun x => x.2) heq
        subst ha
        subst hres
        have hout : addr ∉ rest.map (fun p => p.1.1) := by
          have := (List.nodup_cons.mp hnodup).1
          simpa using this
        have := collectApprovals_untouched addr rest (dictInsert acc addr a) failed hout
        simpa [collectApprovals, this] using lookupKey_dictInsert_self acc addr a
      · cases res0 with
        | error e =>
            simpa [collectApprovals] using
              collectApprovals_ok rest acc (failed ++ r0) addr replicas a hmem' hnodup'
        | ok b =>
            simpa [collectApprovals] using
              collectApprovals_ok rest (dictInsert acc a0 b) failed addr replicas a
                hmem' hnodup'

theorem collectApprovals_err :
    ∀ (pairs : List ((String × List String) × Except ApprovalError OracleApproval))
      (acc : List (String × OracleApproval)) (failed : List String)
      (addr : String) (replicas : List String) (e : ApprovalError),
      ((addr, replicas), Except.error e) ∈ pairs →
      (pairs.map (fun p => p.1.1)).Nodup →
      lookupKey addr acc = none →
      lookupKey addr (collectApprovals pairs acc failed).1 = none ∧
      ∀ r ∈ replicas, r ∈ (collectApprovals pairs acc failed).2
  | [], _, _, _, _, _, hmem, _, _ => by cases hmem
  | ((a0, r0), res0) :: rest, acc, failed, addr, replicas, e, hmem, hnodup, hacc => by
      have hnodup' : (rest.map (fun p => p.1.1)).Nodup := (List.nodup_cons.mp hnodup).2
      rcases List.mem_cons.mp hmem with heq | hmem'
      · have ha : addr = a0 := congrArg (fun x => x.1.1) heq
        have hr : replicas = r0 := congrArg (fun x => x.1.2) heq
        have hres : Except.error (α := OracleApproval) e = res0 := congrArg (fun x => x.2) heq
        subst ha
        subst hr
        subst hres
        have hout : addr ∉ rest.map (fun p => p.1.1) := by
          have := (List.nodup_cons.mp hnodup).1
          simpa using this
        constructor
        · simpa [collectApprovals] using
            (collectApprovals_untouched addr rest acc (failed ++ replicas) hout).trans hacc
        · intro r hr
          simpa [collectApprovals] using
            collectApprovals_failed_mono rest acc (failed ++ replicas) r
              (List.mem_append_right _ hr)
      · have haddr_rest : addr ∈ rest.map (fun p => p.1.1) :=
          List.mem_map_of_mem (fun p => p.1.1) hmem'
        cases res0 with
        | error e0 =>
            simpa [collectApprovals] using
              collectApprovals_err rest acc (failed ++ r0) addr replicas e hmem' hnodup' hacc
        | ok b =>
            have ha0 : addr ≠ a0 := by
              intro hc
              subst hc
              exact (List.nodup_cons.mp hnodup).1 haddr_rest
            have hacc' : lookupKey addr (dictInsert acc a0 b) = none := by
              rw [lookupKey_dictInsert_ne a0 addr b ha0 acc]
              exact hacc
            simpa [collectApprovals] using
              collectApprovals_err rest (dictInsert acc a0 b) failed addr replicas e
                hmem' hnodup' hacc'

theorem batchKeys_sublist :
    ∀ (A : List String) (E : List (List String))
      (R : List (Except ApprovalError OracleApproval)),
      (((A.zip E).zip R).map fun p => p.1.1).Sublist A
  | [], _, _ => by simp
  | _ :: _, [], _ => by simp
  | _ :: _, _ :: _, [] => by simp
  | a :: A', eh :: E', r :: R' => by
      simpa [List.zip_cons_cons] using (batchKeys_sublist A' E' R').cons₂ a

theorem process_oracles_approvals_cases (a : List (String × OracleApproval)) (t : Nat) :
    process_oracles_approvals a t = .ok ⟨a⟩ ∨
    process_oracles_approvals a t = .error .notEnoughApprovals := by
  unfold process_oracles_approvals
  split
  · exact Or.inl rfl
  · exact Or.inr rfl

/-! ## Claims -/

/-- **C1.** For every replica attempt that fails with a transient error
(network error or timeout), if the re-fetched live registry root does not
equal the request payload's `validators_root`, then `send_approval_request`
raises `RegistryRootChangedError` and no further replicas of that oracle are
attempted (the failing endpoint is the last one in the attempt trace, and
the replica loop ends with that error). -/
theorem C1_registry_root_changed_aborts (env : Env) (rand : Nat → Nat)
    (payload : Payload) (replicas : List String) (ep : String) (e : NetError)
    (hroot : env.registryRoot ≠ payload.validators_root)
    (hmem : ep ∈ (send_approval_request_to_replicas_run env rand replicas payload).2)
    (hfail : env.postResult ep = .netError e) :
    send_approval_request env ep payload = .error .registryRootChanged ∧
    (send_approval_request_to_replicas_run env rand replicas payload).1 =
      .error .registryRootChanged ∧
    (send_approval_request_to_replicas_run env rand replicas payload).2.getLast? =
      some ep := by
  have h := replicasRun_stale_root env payload hroot (randomSample rand replicas) none
    ep e hmem hfail
  exact ⟨send_approval_request_stale_root env payload ep e hfail hroot, h.1, h.2⟩

/-- Witness for C1: with both replicas timing out and a moved registry root,
the first replica `r1` is attempted, the loop raises
`RegistryRootChangedError`, and `r1` is the last endpoint attempted. -/
theorem C1_witness :
    "r1" ∈ (send_approval_request_to_replicas_run envC1 rand0 ["r1", "r2"] payloadW).2 ∧
    envC1.registryRoot ≠ payloadW.validators_root ∧
    send_approval_request envC1 "r1" payloadW = .error .registryRootChanged ∧
    (send_approval_request_to_replicas_run envC1 rand0 ["r1", "r2"] payloadW).1 =
      .error .registryRootChanged ∧
    (send_approval_request_to_replicas_run envC1 rand0 ["r1", "r2"] payloadW).2.getLast? =
      some "r1" := by
  have h := C1_registry_root_changed_aborts envC1 rand0 payloadW ["r1", "r2"] "r1"
    .timeoutError (by decide) (by decide) (by decide)
  exact ⟨by decide, by decide, h.1, h.2.1, h.2.2⟩

/-- **C2.** For every replica attempt that fails with a transient error, if
the re-fetched registry root equals the payload's `validators_root` but the
re-derived next validator index differs from the payload's
`validator_index`, then `send_approval_request` raises
`ValidatorIndexChangedError` and no further replicas of that oracle are
attempted; moreover the registry-root check always takes precedence: a
failing attempt under a changed root raises `RegistryRootChangedError`
regardless of the index. -/
theorem C2_validator_index_changed_aborts (env : Env) (rand : Nat → Nat)
    (payload : Payload) (replicas : List String) (ep : String) (e : NetError)
    (hroot : env.registryRoot = payload.validators_root)
    (hidx : env.nextValidatorIndex ≠ payload.validator_index)
    (hmem : ep ∈ (send_approval_request_to_replicas_run env rand replicas payload).2)
    (hfail : env.postResult ep = .netError e) :
    (send_approval_request env ep payload = .error .validatorIndexChanged ∧
     (send_approval_request_to_replicas_run env rand replicas payload).1 =
       .error .validatorIndexChanged ∧
     (send_approval_request_to_replicas_run env rand replicas payload).2.getLast? =
       some ep) ∧
    (∀ (env' : Env) (payload' : Payload) (ep' : String) (e' : NetError),
      env'.postResult ep' = .netError e' →
      env'.registryRoot ≠ payload'.validators_root →
      send_approval_request env' ep' payload' = .error .registryRootChanged) := by
  have h := replicasRun_stale_index env payload hroot hidx (randomSample rand replicas)
    none ep e hmem hfail
  exact ⟨⟨send_approval_request_stale_index env payload ep e hfail hroot hidx, h.1, h.2⟩,
    fun env' payload' ep' e' hf hr =>
      send_approval_request_stale_root env' payload' ep' e' hf hr⟩

/-- Witness for C2: root matches but the live next index is 9 ≠ 7; the first
replica's failure is classified as `ValidatorIndexChangedError` and ends the
loop. -/
theorem C2_witness :
    envC2.registryRoot = payloadW.validators_root ∧
    envC2.nextValidatorIndex ≠ payloadW.validator_index ∧
    send_approval_request envC2 "r1" payloadW = .error .validatorIndexChanged ∧
    (send_approval_request_to_replicas_run envC2 rand0 ["r1", "r2"] payloadW).1 =
      .error .validatorIndexChanged ∧
    (send_approval_request_to_replicas_run envC2 rand0 ["r1", "r2"] payloadW).2.getLast? =
      some "r1" := by
  have h := C2_validator_index_changed_aborts envC2 rand0 payloadW ["r1", "r2"] "r1"
    (.clientError "boom") (by decide) (by decide) (by decide) (by decide)
  exact ⟨by decide, by decide, h.1.1, h.1.2.1, h.1.2.2⟩

/-- **C5.** For every non-empty replica list, if every replica attempt fails
with a transient error (`ClientError` or `TimeoutError`),
`send_approval_request_to_replicas` raises the error encountered on the last
attempted replica (the last endpoint of the shuffled order), not the
first. -/
theorem C5_last_error_raised (env : Env) (rand : Nat → Nat) (payload : Payload)
    (replicas : List String)
    (hne : replicas ≠ [])
    (hall : ∀ ep ∈ replicas, ∃ e,
      send_approval_request env ep payload = .error (.transient e)) :
    ∃ lastEp, (randomSample rand replicas).getLast? = some lastEp ∧
      send_approval_request_to_replicas env rand replicas payload =
        send_approval_request env lastEp payload := by
  have hperm := randomSample_perm rand replicas
  have hne' : randomSample rand replicas ≠ [] := by
    intro hnil
    exact hne (List.eq_nil_of_length_eq_zero (by
      have := hperm.length_eq
      rw [hnil] at this
      simpa using this.symm))
  refine ⟨(randomSample rand replicas).getLast hne',
    List.getLast?_eq_getLast _ hne', ?_⟩
  exact replicasRun_all_transient env payload (randomSample rand replicas) hne'
    (fun ep hm => hall ep (hperm.mem_iff.mp hm)) none

/-- Witness for C5: replicas `r1`, `r2` fail with distinct client errors
`e1`, `e2`; the loop raises `e2`, the error of the last attempted replica,
not `e1`. -/
theorem C5_witness :
    (["r1", "r2"] : List String) ≠ [] ∧
    send_approval_request_to_replicas envC5 rand0 ["r1", "r2"] payloadW =
      .error (.transient (.clientError "e2")) ∧
    send_approval_request envC5 "r1" payloadW = .error (.transient (.clientError "e1")) := by
  obtain ⟨lastEp, hlast, heq⟩ := C5_last_error_raised envC5 rand0 payloadW ["r1", "r2"]
    (by decide)
    (by
      intro ep hep
      rcases List.mem_cons.mp hep with rfl | hep'
      · exact ⟨.clientError "e1", by decide⟩
      · rcases List.mem_cons.mp hep' with rfl | h'
        · exact ⟨.clientError "e2", by decide⟩
        · cases h')
  have hl : lastEp = "r2" := by
    have : (randomSample rand0 ["r1", "r2"]).getLast? = some "r2" := by decide
    rw [this] at hlast
    exact (Option.some.inj hlast).symm
  subst hl
  rw [heq]
  exact ⟨by decide, by decide, by decide⟩

/-- **C6.** For every oracle, replicas are attempted sequentially in a
shuffled order that is a permutation of the oracle's replica list; the
attempt trace follows that order (it is a sublist of it, so each replica is
attempted at most once when the list has no duplicates), and the first
replica whose call returns a well-formed `OracleApproval` stops the loop: it
is the last endpoint attempted and its approval is the loop's result. -/
theorem C6_first_success_stops (env : Env) (rand : Nat → Nat) (payload : Payload)
    (replicas : List String) :
    (randomSample rand replicas).Perm replicas ∧
    ((send_approval_request_to_replicas_run env rand replicas payload).2).Sublist
      (randomSample rand replicas) ∧
    (replicas.Nodup →
      ((send_approval_request_to_replicas_run env rand replicas payload).2).Nodup) ∧
    (∀ ep a, ep ∈ (send_approval_request_to_replicas_run env rand replicas payload).2 →
      send_approval_request env ep payload = .ok a →
      (send_approval_request_to_replicas_run env rand replicas payload).1 = .ok a ∧
      (send_approval_request_to_replicas_run env rand replicas payload).2.getLast? =
        some ep) := by
  have hperm := randomSample_perm rand replicas
  have hsub := replicasRun_attempted_sublist env payload (randomSample rand replicas) none
  refine ⟨hperm, hsub, ?_, ?_⟩
  · intro hnodup
    exact hsub.nodup (hperm.nodup_iff.mpr hnodup)
  · intro ep a hmem hok
    exact replicasRun_success_stops env payload (randomSample rand replicas) none ep a
      hmem hok

/-- Witness for C6: with replicas `a`, `b`, `c` where `a` fails transiently
and `b` succeeds, the loop stops at `b` with `b`'s approval: the trace is
exactly `[a, b]` and `c` is never attempted. -/
theorem C6_witness :
    (randomSample rand0 ["a", "b", "c"]).Perm ["a", "b", "c"] ∧
    (send_approval_request_to_replicas_run envC6 rand0 ["a", "b", "c"] payloadW).1 =
      .ok approvalB ∧
    (send_approval_request_to_replicas_run envC6 rand0 ["a", "b", "c"] payloadW).2 =
      ["a", "b"] ∧
    (send_approval_request_to_replicas_run envC6 rand0 ["a", "b", "c"] payloadW).2.getLast? =
      some "b" := by
  have h := C6_first_success_stops envC6 rand0 payloadW ["a", "b", "c"]
  have hb := h.2.2.2 "b" approvalB (by decide) (by decide)
  exact ⟨h.1, hb.1, by decide, hb.2⟩

/-- **C4.** For every vector of per-oracle outcomes, one oracle's task
ending in any exception does not prevent another oracle's successful
`OracleApproval` from appearing in the aggregated approvals mapping of
`send_approval_requests`: every oracle whose task succeeds has its approval
in the mapping, and every failed oracle contributes its replica endpoints to
the failed-endpoints report instead of an approval. -/
theorem C4_fault_isolation (env : Env) (rands : Nat → Nat → Nat) (oracles : Oracles)
    (payload : Payload) (address : String) (replicas : List String)
    (result : Except ApprovalError OracleApproval)
    (hnodup : oracles.addresses.Nodup)
    (hmem : ((address, replicas), result) ∈ batchPairs env rands oracles payload) :
    (∀ a, result = .ok a →
      lookupKey address (batchCollect env rands oracles payload).1 = some a) ∧
    (∀ e, result = .error e →
      lookupKey address (batchCollect env rands oracles payload).1 = none ∧
      ∀ r ∈ replicas, r ∈ (batchCollect env rands oracles payload).2) := by
  have hkeys : ((batchPairs env rands oracles payload).map fun p => p.1.1).Nodup :=
    (batchKeys_sublist oracles.addresses oracles.endpoints
      (gatherResults env rands oracles payload)).nodup hnodup
  constructor
  · intro a ha
    rw [ha] at hmem
    exact collectApprovals_ok _ [] [] address replicas a hmem hkeys
  · intro e he
    rw [he] at hmem
    exact collectApprovals_err _ [] [] address replicas e hmem hkeys rfl

/-- Witness for C4: oracle `oa`'s task fails (with a stale-root error) while
oracle `ob`'s succeeds; `ob`'s approval is in the mapping, `oa` contributes
its endpoint `a1` to the failed-endpoints list and no approval. -/
theorem C4_witness :
    lookupKey "ob" (batchCollect envC3 rands0 oraclesC3 payloadC3).1 = some approvalB ∧
    lookupKey "oa" (batchCollect envC3 rands0 oraclesC3 payloadC3).1 = none ∧
    "a1" ∈ (batchCollect envC3 rands0 oraclesC3 payloadC3).2 := by
  have hok := (C4_fault_isolation envC3 rands0 oraclesC3 payloadC3 "ob" ["b1"]
    (.ok approvalB) (by decide) (by decide)).1 approvalB rfl
  have herr := (C4_fault_isolation envC3 rands0 oraclesC3 payloadC3 "oa" ["a1"]
    (.error .registryRootChanged) (by decide) (by decide)).2 .registryRootChanged rfl
  exact ⟨hok, herr.1, herr.2 "a1" (by decide)⟩

/-- Counterexample to **C3** as stated: in a concrete round, oracle `oa`'s
task fails with `RegistryRootChangedError`, yet `send_approval_requests`
does not signal that error to its caller — it returns a successful
`OraclesApproval` built from the other oracle, treating `oa` as an ordinary
failed oracle. -/
theorem C3_counterexample :
    send_approval_request_to_replicas envC3 (rands0 0) ["a1"] payloadC3 =
      .error .registryRootChanged ∧
    send_approval_requests envC3 rands0 oraclesC3 payloadC3 =
      .ok ⟨[("ob", approvalB)]⟩ := by
  exact ⟨by decide, by decide⟩

/-- **C3 (amended).** If an oracle's task fails with a stale-round error
(`RegistryRootChangedError` or `ValidatorIndexChangedError`), the error
aborts that oracle's remaining replica attempts, but `send_approval_requests`
does **not** propagate it: the oracle is treated like any other failed
oracle — it contributes no approval, its replicas are added to the
failed-endpoints report — and the batch result is never a stale-round
error (only an `OraclesApproval` or an insufficient-threshold failure). -/
theorem C3_stale_error_contained (env : Env) (rands : Nat → Nat → Nat)
    (oracles : Oracles) (payload : Payload) (address : String)
    (replicas : List String) (e : ApprovalError)
    (hnodup : oracles.addresses.Nodup)
    (hstale : e = ApprovalError.registryRootChanged ∨
      e = ApprovalError.validatorIndexChanged)
    (hmem : ((address, replicas), Except.error e) ∈
      batchPairs env rands oracles payload) :
    lookupKey address (batchCollect env rands oracles payload).1 = none ∧
    (∀ r ∈ replicas, r ∈ (batchCollect env rands oracles payload).2) ∧
    send_approval_requests env rands oracles payload ≠ .error .registryRootChanged ∧
    send_approval_requests env rands oracles payload ≠ .error .validatorIndexChanged := by
  have hkeys : ((batchPairs env rands oracles payload).map fun p => p.1.1).Nodup :=
    (batchKeys_sublist oracles.addresses oracles.endpoints
      (gatherResults env rands oracles payload)).nodup hnodup
  have h := collectApprovals_err _ [] [] address replicas e hmem hkeys rfl
  have hshape := process_oracles_approvals_cases
    (batchCollect env rands oracles payload).1 oracles.validators_threshold
  refine ⟨h.1, h.2, ?_, ?_⟩
  · intro hc
    rcases hshape with hs | hs <;> rw [show send_approval_requests env rands oracles payload
      = process_oracles_approvals (batchCollect env rands oracles payload).1
        oracles.validators_threshold from rfl, hs] at hc <;> cases hc
  · intro hc
    rcases hshape with hs | hs <;> rw [show send_approval_requests env rands oracles payload
      = process_oracles_approvals (batchCollect env rands oracles payload).1
        oracles.validators_threshold from rfl, hs] at hc <;> cases hc

/-- Witness for the amended C3: in the concrete stale-root round, `oa` has
no approval, its endpoint is reported failed, and the batch result is not a
stale-round error. -/
theorem C3_amended_witness :
    lookupKey "oa" (batchCollect envC3 rands0 oraclesC3 payloadC3).1 = none ∧
    "a1" ∈ (batchCollect envC3 rands0 oraclesC3 payloadC3).2 ∧
    send_approval_requests envC3 rands0 oraclesC3 payloadC3 ≠
      .error .registryRootChanged := by
  have h := C3_stale_error_contained envC3 rands0 oraclesC3 payloadC3 "oa" ["a1"]
    .registryRootChanged (by decide) (Or.inl rfl) (by decide)
  exact ⟨h.1, h.2.1 "a1" (by decide), h.2.2.1⟩

/-- **C7.** `generate_validators_tree` is deterministic: two runs on
identical `(vault_address, deposit_entries)` inputs yield an identical
Merkle root, identical per-leaf proofs, and identical validator lists. -/
theorem C7_tree_deterministic (vault₁ vault₂ : HexStr) (dd₁ dd₂ : List DepositEntry)
    (h : vault₁ = vault₂ ∧ dd₁ = dd₂) :
    (generate_validators_tree vault₁ dd₁).1.root =
      (generate_validators_tree vault₂ dd₂).1.root ∧
    (∀ i : Nat, (generate_validators_tree vault₁ dd₁).1.proofOf i =
      (generate_validators_tree vault₂ dd₂).1.proofOf i) ∧
    (generate_validators_tree vault₁ dd₁).2 = (generate_validators_tree vault₂ dd₂).2 := by
  obtain ⟨h1, h2⟩ := h
  subst h1
  subst h2
  exact ⟨rfl, fun _ => rfl, rfl⟩

/-- Witness for C7: two runs on the concrete two-entry deposit data agree on
root, on the proof of leaf 0, and on the validator list. -/
theorem C7_witness :
    (generate_validators_tree "0xab" ddW).1.root =
      (generate_validators_tree "0xab" ddW).1.root ∧
    (generate_validators_tree "0xab" ddW).1.proofOf 0 =
      (generate_validators_tree "0xab" ddW).1.proofOf 0 ∧
    (generate_validators_tree "0xab" ddW).2 = (generate_validators_tree "0xab" ddW).2 := by
  have h := C7_tree_deterministic "0xab" "0xab" ddW ddW ⟨rfl, rfl⟩
  exact ⟨h.1, h.2.1 0, h.2.2⟩

/-- **C9.** For every validator `i` in the deposit-data list, the built
`Validator` record has `deposit_data_index` equal to its 0-based position in
the input list, and its `public_key` and `signature` are the source entry's
hex strings normalized with a `0x` prefix. -/
theorem C9_validator_record_fields (vault : HexStr) (dd : List DepositEntry)
    (i : Nat) (hi : i < dd.length) :
    (generate_validators_tree vault dd).2.length = dd.length ∧
    ∃ h : i < (generate_validators_tree vault dd).2.length,
      (generate_validators_tree vault dd).2.get ⟨i, h⟩ =
        { deposit_data_index := i
          public_key := add_0x_prefix (dd.get ⟨i, hi⟩).pubkey
          signature := add_0x_prefix (dd.get ⟨i, hi⟩).signature } := by
  have hlen : (generate_validators_tree vault dd).2.length = dd.length := by
    simp [generate_validators_tree]
  have h2 : i < (generate_validators_tree vault dd).2.length := by
    rw [hlen]; exact hi
  refine ⟨hlen, h2, ?_⟩
  rw [List.get_eq_getElem]
  simp only [generate_validators_tree]
  rw [List.getElem_map, List.getElem_enum]
  simp [List.get_eq_getElem]

/-- Witness for C9: in the concrete two-entry deposit data, validator 1 gets
index 1 and the `0x`-normalized key and signature of entry 1. -/
theorem C9_witness :
    1 < ddW.length ∧
    (generate_validators_tree "0xab" ddW).2.length = ddW.length ∧
    ∃ h : 1 < (generate_validators_tree "0xab" ddW).2.length,
      (generate_validators_tree "0xab" ddW).2.get ⟨1, h⟩ =
        { deposit_data_index := 1, public_key := "0xcc", signature := "0xdd" } := by
  have h := C9_validator_record_fields "0xab" ddW 1 (by decide)
  obtain ⟨hlen, hb, hv⟩ := h
  refine ⟨by decide, hlen, hb, ?_⟩
  rw [hv]
  decide

theorem loadLoop_ok_all :
    ∀ (results : List (Except KeystoreErr (HexStr × Bytes)))
      (acc : List (HexStr × Bytes)) (m : Keystores),
      loadLoop results acc = .ok m →
      ∀ r ∈ results, ∃ pk sk, r = .ok (pk, sk)
  | [], _, _, _, r, hr => by cases hr
  | .ok (pk, sk) :: rest, acc, m, hload, r, hr => by
      rcases List.mem_cons.mp hr with rfl | hr'
      · exact ⟨pk, sk, rfl⟩
      · exact loadLoop_ok_all rest (dictInsert acc pk sk) m
          (by simpa [loadLoop] using hload) r hr'
  | .error e :: rest, acc, m, hload, r, hr => by
      simp [loadLoop] at hload

theorem loadLoop_err :
    ∀ (results : List (Except KeystoreErr (HexStr × Bytes)))
      (acc : List (HexStr × Bytes)),
      (∃ r ∈ results, ∃ e, r = .error e) →
      ∃ e, loadLoop results acc = .error e
  | [], _, h => by
      rcases h with ⟨r, hr, -⟩
      cases hr
  | .ok (pk, sk) :: rest, acc, h => by
      rcases h with ⟨r, hr, e, he⟩
      rcases List.mem_cons.mp hr with rfl | hr'
      · cases he
      · exact loadLoop_err rest (dictInsert acc pk sk) ⟨r, hr', e, he⟩
  | .error e :: _, _, _ => ⟨e, rfl⟩

/-- **C8.** `load_keystores` is atomic: if any keystore file fails to parse
or decrypt, the whole load fails with an error and no partial mapping is
returned; a mapping is returned only when every file's processing
succeeded. -/
theorem C8_load_keystores_atomic (fs : FsEnv) (kenv : KeystoreEnv) :
    (∀ m, load_keystores fs kenv = .ok m →
      ∀ kf ∈ list_keystore_files fs, ∃ pk sk,
        process_keystore_file kenv kf fs.keystores_dir = .ok (pk, sk)) ∧
    ((∃ kf ∈ list_keystore_files fs, ∃ e,
        process_keystore_file kenv kf fs.keystores_dir = .error e) →
      ∃ e, load_keystores fs kenv = .error e) := by
  constructor
  · intro m hm kf hkf
    exact loadLoop_ok_all _ [] m hm (process_keystore_file kenv kf fs.keystores_dir)
      (List.mem_map_of_mem _ hkf)
  · rintro ⟨kf, hkf, e, he⟩
    exact loadLoop_err _ []
      ⟨process_keystore_file kenv kf fs.keystores_dir, List.mem_map_of_mem _ hkf, e, he⟩

/-- Witness for C8: with `keystore2.json` corrupted among two discovered
keystores, the whole load fails. -/
theorem C8_witness : ∃ e, load_keystores fsC8 kenvC8 = .error e := by
  exact (C8_load_keystores_atomic fsC8 kenvC8).2
    ⟨⟨"keystore2.json", "pass"⟩, by decide,
      KeystoreErr.invalidFormat "keystore2.json", by decide⟩

/-- **C10.** For every discovered keystore file, `list_keystore_files`
resolves its password from the per-file sidecar text file (the keystore name
with `.json` replaced by `.txt`) when that sidecar exists, and otherwise
from the directory-wide default password file. -/
theorem C10_password_resolution (fs : FsEnv) (f : String)
    (hmem : f ∈ fs.listing)
    (hfile : fs.isFile (pathJoin fs.keystores_dir f) = true)
    (hstart : strStartsWith f "keystore" = true)
    (hend : strEndsWith f ".json" = true) :
    KeystoreFile.mk f
      (if fs.isFile (pathJoin fs.keystores_password_dir (pyReplace f ".json" ".txt"))
       then load_keystores_password fs
         (pathJoin fs.keystores_password_dir (pyReplace f ".json" ".txt"))
       else load_keystores_password fs fs.keystores_password_file)
      ∈ list_keystore_files fs := by
  unfold list_keystore_files
  rw [List.mem_filterMap]
  refine ⟨f, hmem, ?_⟩
  rw [if_pos ⟨by rw [hfile], by rw [hstart], by rw [hend]⟩]
  show some (KeystoreFile.mk f (load_keystores_password fs
      (if fs.isFile (pathJoin fs.keystores_password_dir (pyReplace f ".json" ".txt")) = true
       then pathJoin fs.keystores_password_dir (pyReplace f ".json" ".txt")
       else fs.keystores_password_file))) = _
  by_cases hc : fs.isFile (pathJoin fs.keystores_password_dir (pyReplace f ".json" ".txt")) = true
  · rw [if_pos hc, if_pos hc]
  · rw [if_neg hc, if_neg hc]

/-- Witness for C10: `keystore1.json` (with sidecar `pw/keystore1.txt`
containing `" abc\n"`) resolves to the stripped sidecar password `"abc"`,
while `keystore2.json` (no sidecar) resolves to the default file's
`"xyz"`. -/
theorem C10_witness :
    KeystoreFile.mk "keystore1.json" "abc" ∈ list_keystore_files envC10 ∧
    KeystoreFile.mk "keystore2.json" "xyz" ∈ list_keystore_files envC10 := by
  have h1 := C10_password_resolution envC10 "keystore1.json"
    (by decide) (by decide) (by decide) (by decide)
  have h2 := C10_password_resolution envC10 "keystore2.json"
    (by decide) (by decide) (by decide) (by decide)
  constructor
  · have e1 : (if envC10.isFile
        (pathJoin envC10.keystores_password_dir (pyReplace "keystore1.json" ".json" ".txt"))
       then load_keystores_password envC10
         (pathJoin envC10.keystores_password_dir (pyReplace "keystore1.json" ".json" ".txt"))
       else load_keystores_password envC10 envC10.keystores_password_file) = "abc" := by
      decide
    rw [e1] at h1
    exact h1
  · have e2 : (if envC10.isFile
        (pathJoin envC10.keystores_password_dir (pyReplace "keystore2.json" ".json" ".txt"))
       then load_keystores_password envC10
         (pathJoin envC10.keystores_password_dir (pyReplace "keystore2.json" ".json" ".txt"))
       else load_keystores_password envC10 envC10.keystores_password_file) = "xyz" := by
      decide
    rw [e2] at h2
    exact h2

end V3Operator
